import Mathlib

/-!
Verification of the return-value analysis core (src/utils/hasReturnValue.js).

The source is a family of recursive-descent traversals over an ESTree-style
syntax tree:

* hasReturnValue            — the Existence traversal ("some path returns a value"),
* allBrancheshaveReturnValues — the Exhaustiveness traversal ("all paths return"),
* hasNonEmptyResolverCall   — the Resolver-Usage traversal, and
* hasValueOrExecutorHasNonEmptyResolveValue — the composite decision entry point.

Nodes are modelled as a closed sum type.  Only the fields the source actually
reads are carried by each constructor; optional (possibly null) fields are
Option-valued and the null checks of the source are modelled at exactly the
places the source performs them.  The thrown Error with message Null return
(the internal EmptyReturn signal) is modelled by the error branch of
Except Unit Bool.
-/

/-- Tagged syntax-tree node, one constructor per node kind that the source
inspects.  Notes on fidelity:

* tryStatement carries the handler body directly (the source only ever reads
  node.handler and then node.handler.body, never any other handler field).
* switchStatement carries each case as its consequent statement list (the
  source never reads a case test).
* newExpression carries its type parameters as the list of type tags of
  typeParameters.params (the source only reads params[0].type).
* literal carries some b when the literal value is the boolean b and none for
  every other literal value (the source only compares node.test.value with
  the boolean true under strict equality).
* other stands for every node kind the source does not inspect; each
  traversal sends it to its default arm. -/
inductive Node where
  | tsDeclareFunction (returnType : Option String)
  | tsFunctionType (returnType : Option String)
  | tsMethodSignature (returnType : Option String)
  | methodDefinition (decorators : Option (List Node)) (computed : Bool) (key : Node) (value : Node)
  | functionExpression (expression : Bool) (params : List Node) (body : Node)
  | functionDeclaration (expression : Bool) (params : List Node) (body : Node)
  | arrowFunctionExpression (expression : Bool) (params : List Node) (body : Node)
  | blockStatement (body : List Node)
  | labeledStatement (body : Node)
  | whileStatement (test : Node) (body : Node)
  | doWhileStatement (test : Node) (body : Node)
  | forStatement (test : Option Node) (body : Node)
  | forInStatement (body : Node)
  | forOfStatement (body : Node)
  | withStatement (body : Node)
  | ifStatement (test : Node) (consequent : Node) (alternate : Option Node)
  | conditionalExpression (test : Node) (consequent : Node) (alternate : Node)
  | tryStatement (block : Node) (handlerBody : Option Node) (finalizer : Option Node)
  | switchStatement (cases : List (List Node))
  | returnStatement (argument : Option Node)
  | throwStatement
  | breakStatement
  | newExpression (callee : Node) (typeParameters : Option (List String)) (arguments : List Node)
  | callExpression (callee : Node) (arguments : List Node)
  | optionalCallExpression (callee : Node) (arguments : List Node)
  | chainExpression (expression : Node)
  | decorator (expression : Node)
  | expressionStatement (expression : Node)
  | classBody (body : List Node)
  | arrayPattern (elements : List (Option Node))
  | arrayExpression (elements : List (Option Node))
  | assignmentPattern (right : Node)
  | assignmentExpression (left : Node) (right : Node)
  | binaryExpression (left : Node) (right : Node)
  | logicalExpression (left : Node) (right : Node)
  | sequenceExpression (expressions : List Node)
  | templateLiteral (expressions : List Node)
  | objectPattern (properties : List Node)
  | objectExpression (properties : List Node)
  | classMethod (decorators : Option (List Node)) (computed : Bool) (key : Node) (value : Node)
  | objectProperty (computed : Bool) (key : Node) (value : Node)
  | propertyDefinition (computed : Bool) (key : Node) (value : Node)
  | classProperty (computed : Bool) (key : Node) (value : Node)
  | property (computed : Bool) (key : Node) (value : Node)
  | objectMethod (computed : Bool) (key : Node) (arguments : List Node)
  | classExpression (body : Node)
  | classDeclaration (body : Node)
  | awaitExpression (argument : Node)
  | spreadElement (argument : Node)
  | unaryExpression (argument : Node)
  | yieldExpression (argument : Option Node)
  | variableDeclaration (declarations : List Node)
  | variableDeclarator (id : Node) (init : Option Node)
  | taggedTemplateExpression (quasi : Node)
  | memberExpression (object : Node) (prop : Node)
  | optionalMemberExpression (object : Node) (prop : Node)
  | importExpr (source : Node)
  | importExpression (source : Node)
  | identifier (name : String)
  | literal (value : Option Bool)
  | other

/-- Size of a list is positive (used by the termination arguments of the
traversals below). -/
theorem sizeOf_list_pos {α : Type} [SizeOf α] (l : List α) : 0 < sizeOf l := by
  cases l <;> simp_arith

/-- Models the JavaScript read of the name field: only Identifier nodes carry
a name here; every other kind yields undefined (none). -/
def getName : Node → Option String
  | .identifier name => some name
  | _ => none

/-- The process-wide constant set of no-value return-type annotation tags
(the Set named undefinedKeywords in the source). -/
def undefinedKeywords : List String :=
  ["TSVoidKeyword", "TSUndefinedKeyword", "TSNeverKeyword"]

/-- Embeds isNewPromiseExpression: the node exists, is a NewExpression, and
its callee is the identifier Promise. -/
def isNewPromiseExpression : Option Node → Bool
  | some (.newExpression callee _ _) =>
    match callee with
    | .identifier name => name == "Promise"
    | _ => false
  | _ => false

/-- Embeds isVoidPromise: node?.typeParameters?.params?.[0]?.type is the tag
TSVoidKeyword.  Type parameters are modelled only on NewExpression nodes; on
every other kind the optional chain yields undefined, which is not strictly
equal to the tag, hence false. -/
def isVoidPromise : Option Node → Bool
  | some (.newExpression _ (some (t :: _)) _) => t == "TSVoidKeyword"
  | _ => false

/-- Embeds the shared signature-form rule: the declared return-type tag
exists (a nonempty string, per JavaScript truthiness) and is not in the
no-value set. -/
def returnTypeIsValued (returnType : Option String) : Bool :=
  match returnType with
  | none => false
  | some t => !(t == "") && !(undefinedKeywords.contains t)

/-- True exactly for FunctionDeclaration nodes (the statement kind that the
Existence block rule skips, since declaring a function does not execute it). -/
def isFunctionDeclaration : Node → Bool
  | .functionDeclaration _ _ _ => true
  | _ => false

/-- True exactly for ReturnStatement nodes, with any argument. -/
def isReturnStatement : Node → Bool
  | .returnStatement _ => true
  | _ => false

/-- True exactly for BreakStatement nodes. -/
def isBreakStatement : Node → Bool
  | .breakStatement => true
  | _ => false

/-- True exactly for an argument-less ReturnStatement. -/
def isEmptyReturn : Node → Bool
  | .returnStatement none => true
  | _ => false

/-- Models the strict comparison node.test.value === true: only a Literal
node whose value is the boolean true passes. -/
def valueIsTrue : Node → Bool
  | .literal (some b) => b
  | _ => false

/-- Models the read node.body.body on a function whose body was already taken:
the statement list of a BlockStatement.  On a non-block body the JavaScript
read would fault; that read is reachable in the source only on inputs that
also fault there, and is modelled as the empty list. -/
def blockBody : Node → List Node
  | .blockStatement body => body
  | _ => []

/-- Short-circuit disjunction in the Except monad, mirroring the JavaScript
operator: a thrown signal on the left propagates, a true left operand hides
the right operand entirely (including any signal it would raise). -/
def orE (a b : Except Unit Bool) : Except Unit Bool :=
  match a with
  | .error e => .error e
  | .ok true => .ok true
  | .ok false => b

mutual

/-- Embeds hasReturnValue (the Existence traversal).  The boolean
throwOnNullReturn enables the EmptyReturn escalation: an argument-less
return then raises the signal, modelled as Except.error ().  The membership
test that the source performs for the expression field (the in operator) is
modelled as always passing, since every function-like constructor carries
that field here; the conjunction then reduces to the value of the field,
exactly as in the source. -/
def hasReturnValue (node : Option Node) (throwOnNullReturn : Bool)
    (promFilter : Option (Node → Bool)) : Except Unit Bool :=
  match node with
  | none => .ok false
  | some n =>
    match n with
    | .tsDeclareFunction returnType
    | .tsFunctionType returnType
    | .tsMethodSignature returnType => .ok (returnTypeIsValued returnType)
    | .methodDefinition _ _ _ value =>
      hasReturnValue (some value) throwOnNullReturn promFilter
    | .functionExpression expression _ body
    | .functionDeclaration expression _ body
    | .arrowFunctionExpression expression _ body =>
      if expression && (!isNewPromiseExpression (some body) || !isVoidPromise (some body)) then
        .ok true
      else
        hasReturnValue (some body) throwOnNullReturn promFilter
    | .blockStatement body => hasReturnValueBlockList body throwOnNullReturn promFilter
    | .labeledStatement body
    | .whileStatement _ body
    | .doWhileStatement _ body
    | .forStatement _ body
    | .forInStatement body
    | .forOfStatement body
    | .withStatement body =>
      hasReturnValue (some body) throwOnNullReturn promFilter
    | .ifStatement _ consequent alternate =>
      orE (hasReturnValue (some consequent) throwOnNullReturn promFilter)
        (hasReturnValue alternate throwOnNullReturn promFilter)
    | .tryStatement block handlerBody finalizer =>
      orE (hasReturnValue (some block) throwOnNullReturn promFilter)
        (orE (hasReturnValue handlerBody throwOnNullReturn promFilter)
          (hasReturnValue finalizer throwOnNullReturn promFilter))
    | .switchStatement cases => hasReturnValueCaseList cases throwOnNullReturn promFilter
    | .returnStatement argument =>
      match argument with
      | none => if throwOnNullReturn then .error () else .ok false
      | some arg =>
        match promFilter with
        | some filter =>
          if isNewPromiseExpression (some arg) then .ok (filter arg) else .ok true
        | none => .ok true
    | _ => .ok false
termination_by sizeOf node

/-- Embeds the BlockStatement arm of hasReturnValue: some direct statement,
excluding nested FunctionDeclaration statements, satisfies Existence. -/
def hasReturnValueBlockList (body : List Node) (throwOnNullReturn : Bool)
    (promFilter : Option (Node → Bool)) : Except Unit Bool :=
  match body with
  | [] => .ok false
  | b :: rest =>
    orE
      (if isFunctionDeclaration b then .ok false
       else hasReturnValue (some b) throwOnNullReturn promFilter)
      (hasReturnValueBlockList rest throwOnNullReturn promFilter)
termination_by sizeOf body
decreasing_by all_goals first
  | (simp_wf; omega)
  | (simp_wf; have := sizeOf_list_pos rest; omega)
  | simp_wf

/-- Embeds the inner some() of the SwitchStatement arm of hasReturnValue:
some statement of one case consequent satisfies Existence. -/
def hasReturnValueStmtList (stmts : List Node) (throwOnNullReturn : Bool)
    (promFilter : Option (Node → Bool)) : Except Unit Bool :=
  match stmts with
  | [] => .ok false
  | s :: rest =>
    orE (hasReturnValue (some s) throwOnNullReturn promFilter)
      (hasReturnValueStmtList rest throwOnNullReturn promFilter)
termination_by sizeOf stmts
decreasing_by all_goals first
  | (simp_wf; omega)
  | (simp_wf; have := sizeOf_list_pos rest; omega)
  | simp_wf

/-- Embeds the outer some() of the SwitchStatement arm of hasReturnValue. -/
def hasReturnValueCaseList (cases : List (List Node)) (throwOnNullReturn : Bool)
    (promFilter : Option (Node → Bool)) : Except Unit Bool :=
  match cases with
  | [] => .ok false
  | c :: rest =>
    orE (hasReturnValueStmtList c throwOnNullReturn promFilter)
      (hasReturnValueCaseList rest throwOnNullReturn promFilter)
termination_by sizeOf cases
decreasing_by all_goals first
  | (simp_wf; omega)
  | (simp_wf; have := sizeOf_list_pos rest; omega)
  | simp_wf

end

/-- The last element of a list is smaller than the list (termination argument
for the Exhaustiveness block rule, which recurses on the last statement). -/
theorem sizeOf_getLast?_lt {α : Type} [SizeOf α] :
    ∀ (l : List α) (x : α), l.getLast? = some x → sizeOf x < sizeOf l
  | [], _, h => by simp at h
  | [a], x, h => by
    simp [List.getLast?] at h
    subst h
    simp_arith
  | a :: b :: t, x, h => by
    rw [List.getLast?_cons_cons] at h
    have ih := sizeOf_getLast?_lt (b :: t) x h
    simp_arith at ih ⊢
    omega

/-- Models a plain (non-escalating) call of hasReturnValue used as a boolean:
the source calls hasReturnValue with throwOnNullReturn false at these sites,
and with that flag the traversal never raises the signal (theorem
hasReturnValue_noSignal below), so the error default is dead. -/
def hasReturnValueBool (node : Option Node) (promFilter : Option (Node → Bool)) : Bool :=
  match hasReturnValue node false promFilter with
  | .ok b => b
  | .error _ => false

/-- Embeds the inner immediately-invoked check of the TryStatement arm of
allBrancheshaveReturnValues: run the Existence traversal over the finalizer
in escalation mode; a raised EmptyReturn signal yields false, any returned
boolean (its value is discarded by the source) yields true. -/
def finalizerFreeOfEmptyReturn (finalizer : Option Node) (promFilter : Option (Node → Bool)) : Bool :=
  match hasReturnValue finalizer true promFilter with
  | .error _ => false
  | .ok _ => true

/-- Embeds allBrancheshaveReturnValues (the Exhaustiveness traversal).
Fidelity notes, mirroring the source:

* The MethodDefinition arm is commented out in the source, so MethodDefinition
  nodes fall to the default arm (false).
* For function-like nodes the third disjunct reads node.body.body, modelled by
  blockBody.
* Only WhileStatement and DoWhileStatement test the literal-true condition;
  every other loop kind (including ForStatement) falls through to the
  Exhaustiveness of its body. -/
def allBrancheshaveReturnValues (node : Option Node) (promFilter : Option (Node → Bool)) : Bool :=
  match node with
  | none => false
  | some n =>
    match n with
    | .tsDeclareFunction returnType
    | .tsFunctionType returnType
    | .tsMethodSignature returnType => returnTypeIsValued returnType
    | .functionExpression expression _ body
    | .functionDeclaration expression _ body
    | .arrowFunctionExpression expression _ body =>
      (expression && (!isNewPromiseExpression (some body) || !isVoidPromise (some body))) ||
      allBrancheshaveReturnValues (some body) promFilter ||
      (blockBody body).any (fun nde => isReturnStatement nde)
    | .blockStatement body =>
      match h : body.getLast? with
      | none => false
      | some lastBodyNode => allBrancheshaveReturnValues (some lastBodyNode) promFilter
    | .whileStatement test body
    | .doWhileStatement test body =>
      if valueIsTrue test then
        hasReturnValueBool (some body) promFilter
      else
        allBrancheshaveReturnValues (some body) promFilter
    | .labeledStatement body
    | .forStatement _ body
    | .forInStatement body
    | .forOfStatement body
    | .withStatement body =>
      allBrancheshaveReturnValues (some body) promFilter
    | .ifStatement _ consequent alternate =>
      allBrancheshaveReturnValues (some consequent) promFilter &&
      allBrancheshaveReturnValues alternate promFilter
    | .tryStatement block handlerBody finalizer =>
      (finalizer.isSome && allBrancheshaveReturnValues finalizer promFilter) ||
      (allBrancheshaveReturnValues (some block) promFilter &&
        (handlerBody.isNone || allBrancheshaveReturnValues handlerBody promFilter) &&
        (finalizer.isNone || finalizerFreeOfEmptyReturn finalizer promFilter))
    | .switchStatement cases =>
      cases.all (fun someCase =>
        !(someCase.any (fun consNode =>
          isBreakStatement consNode || isEmptyReturn consNode)))
    | .throwStatement => true
    | .returnStatement argument =>
      match argument with
      | none => false
      | some arg =>
        match promFilter with
        | some filter =>
          if isNewPromiseExpression (some arg) then filter arg else true
        | none => true
    | _ => false
termination_by sizeOf node
decreasing_by all_goals first
  | (simp_wf; omega)
  | (simp_wf; have := sizeOf_getLast?_lt _ _ h; omega)
  | simp_wf

/-- Embeds the test nde.type === Identifier and nde.name === resolverName on
one call argument. -/
def isIdentifierNamed (nde : Node) (resolverName : Option String) : Bool :=
  match nde with
  | .identifier name => some name == resolverName
  | _ => false

mutual

/-- Embeds hasNonEmptyResolverCall (the Resolver-Usage traversal).  The
resolver name is Option-valued because the source obtains it from
params[0].name, which is undefined when the first executor parameter is not
a plain identifier; strict equality against undefined is modelled by
comparison of options.  Fidelity notes:

* A CallExpression counts when its callee bears the resolver name and the
  comparison arguments.length is greater than 1 or arguments[0] is not
  undefined holds, which for an argument list of AST nodes is exactly
  "at least one argument slot".
* Function-like nodes whose first parameter name strictly equals the
  resolver name are not recursed into (shadowing).
* NewExpression, ThrowStatement, bare identifiers and literals have no arm
  in the source and fall to the default (false). -/
def hasNonEmptyResolverCall (node : Option Node) (resolverName : Option String) : Bool :=
  match node with
  | none => false
  | some n =>
    match n with
    | .optionalCallExpression callee arguments
    | .callExpression callee arguments =>
      (getName callee == resolverName &&
        (decide (arguments.length > 1) || arguments.head?.isSome)) ||
      hasNonEmptyResolverCallArgs arguments resolverName
    | .chainExpression expression
    | .decorator expression
    | .expressionStatement expression =>
      hasNonEmptyResolverCall (some expression) resolverName
    | .classBody body
    | .blockStatement body =>
      hasNonEmptyResolverCallList body resolverName
    | .functionExpression _ params body
    | .functionDeclaration _ params body
    | .arrowFunctionExpression _ params body =>
      if (params.head?.bind getName) == resolverName then
        false
      else
        hasNonEmptyResolverCall (some body) resolverName
    | .labeledStatement body
    | .whileStatement _ body
    | .doWhileStatement _ body
    | .forStatement _ body
    | .forInStatement body
    | .forOfStatement body
    | .withStatement body =>
      hasNonEmptyResolverCall (some body) resolverName
    | .conditionalExpression test consequent alternate =>
      hasNonEmptyResolverCall (some test) resolverName ||
      hasNonEmptyResolverCall (some consequent) resolverName ||
      hasNonEmptyResolverCall (some alternate) resolverName
    | .ifStatement test consequent alternate =>
      hasNonEmptyResolverCall (some test) resolverName ||
      hasNonEmptyResolverCall (some consequent) resolverName ||
      hasNonEmptyResolverCall alternate resolverName
    | .tryStatement block handlerBody finalizer =>
      hasNonEmptyResolverCall (some block) resolverName ||
      hasNonEmptyResolverCall handlerBody resolverName ||
      hasNonEmptyResolverCall finalizer resolverName
    | .switchStatement cases =>
      hasNonEmptyResolverCallCaseList cases resolverName
    | .arrayPattern elements
    | .arrayExpression elements =>
      hasNonEmptyResolverCallOptList elements resolverName
    | .assignmentPattern right =>
      hasNonEmptyResolverCall (some right) resolverName
    | .assignmentExpression left right
    | .binaryExpression left right
    | .logicalExpression left right =>
      hasNonEmptyResolverCall (some left) resolverName ||
      hasNonEmptyResolverCall (some right) resolverName
    | .sequenceExpression expressions
    | .templateLiteral expressions =>
      hasNonEmptyResolverCallList expressions resolverName
    | .objectPattern properties
    | .objectExpression properties =>
      hasNonEmptyResolverCallList properties resolverName
    | .classMethod decorators computed key value
    | .methodDefinition decorators computed key value =>
      (match decorators with
       | some decs => hasNonEmptyResolverCallList decs resolverName
       | none => false) ||
      (computed && hasNonEmptyResolverCall (some key) resolverName) ||
      hasNonEmptyResolverCall (some value) resolverName
    | .objectProperty computed key value
    | .propertyDefinition computed key value
    | .classProperty computed key value
    | .property computed key value =>
      (computed && hasNonEmptyResolverCall (some key) resolverName) ||
      hasNonEmptyResolverCall (some value) resolverName
    | .objectMethod computed key arguments =>
      (computed && hasNonEmptyResolverCall (some key) resolverName) ||
      hasNonEmptyResolverCallList arguments resolverName
    | .classExpression body
    | .classDeclaration body =>
      hasNonEmptyResolverCall (some body) resolverName
    | .awaitExpression argument
    | .spreadElement argument
    | .unaryExpression argument =>
      hasNonEmptyResolverCall (some argument) resolverName
    | .yieldExpression argument =>
      hasNonEmptyResolverCall argument resolverName
    | .variableDeclaration declarations =>
      hasNonEmptyResolverCallList declarations resolverName
    | .variableDeclarator id init =>
      hasNonEmptyResolverCall (some id) resolverName ||
      hasNonEmptyResolverCall init resolverName
    | .taggedTemplateExpression quasi =>
      hasNonEmptyResolverCall (some quasi) resolverName
    | .optionalMemberExpression object prop
    | .memberExpression object prop =>
      hasNonEmptyResolverCall (some object) resolverName ||
      hasNonEmptyResolverCall (some prop) resolverName
    | .importExpr source
    | .importExpression source =>
      hasNonEmptyResolverCall (some source) resolverName
    | .returnStatement argument =>
      match argument with
      | none => false
      | some arg => hasNonEmptyResolverCall (some arg) resolverName
    | _ => false
termination_by sizeOf node
decreasing_by all_goals first
  | (simp_wf; omega)
  | simp_wf

/-- Embeds the some() over call arguments: the argument is the bare resolver
identifier, or (handling nested items) itself contains a resolver use. -/
def hasNonEmptyResolverCallArgs (arguments : List Node) (resolverName : Option String) : Bool :=
  match arguments with
  | [] => false
  | nde :: rest =>
    (isIdentifierNamed nde resolverName ||
      hasNonEmptyResolverCall (some nde) resolverName) ||
    hasNonEmptyResolverCallArgs rest resolverName
termination_by sizeOf arguments
decreasing_by all_goals first
  | (simp_wf; omega)
  | (simp_wf; have := sizeOf_list_pos rest; omega)
  | simp_wf

/-- Embeds a plain some() over a list of child nodes. -/
def hasNonEmptyResolverCallList (body : List Node) (resolverName : Option String) : Bool :=
  match body with
  | [] => false
  | b :: rest =>
    hasNonEmptyResolverCall (some b) resolverName ||
    hasNonEmptyResolverCallList rest resolverName
termination_by sizeOf body
decreasing_by all_goals first
  | (simp_wf; omega)
  | (simp_wf; have := sizeOf_list_pos rest; omega)
  | simp_wf

/-- Embeds a some() over array elements, which may hold null holes. -/
def hasNonEmptyResolverCallOptList (elements : List (Option Node)) (resolverName : Option String) : Bool :=
  match elements with
  | [] => false
  | e :: rest =>
    hasNonEmptyResolverCall e resolverName ||
    hasNonEmptyResolverCallOptList rest resolverName
termination_by sizeOf elements
decreasing_by all_goals first
  | (simp_wf; omega)
  | (simp_wf; have := sizeOf_list_pos rest; omega)
  | simp_wf

/-- Embeds the inner some() of the SwitchStatement arm of
hasNonEmptyResolverCall. -/
def hasNonEmptyResolverCallStmtList (stmts : List Node) (resolverName : Option String) : Bool :=
  match stmts with
  | [] => false
  | s :: rest =>
    hasNonEmptyResolverCall (some s) resolverName ||
    hasNonEmptyResolverCallStmtList rest resolverName
termination_by sizeOf stmts
decreasing_by all_goals first
  | (simp_wf; omega)
  | (simp_wf; have := sizeOf_list_pos rest; omega)
  | simp_wf

/-- Embeds the outer some() of the SwitchStatement arm of
hasNonEmptyResolverCall. -/
def hasNonEmptyResolverCallCaseList (cases : List (List Node)) (resolverName : Option String) : Bool :=
  match cases with
  | [] => false
  | c :: rest =>
    hasNonEmptyResolverCallStmtList c resolverName ||
    hasNonEmptyResolverCallCaseList rest resolverName
termination_by sizeOf cases
decreasing_by all_goals first
  | (simp_wf; omega)
  | (simp_wf; have := sizeOf_list_pos rest; omega)
  | simp_wf

end

/-- Models the destructuring reads of the executor in the composite filter:
the params list of a function-like first constructor argument (undefined for
any other node kind). -/
def getParams : Node → Option (List Node)
  | .functionExpression _ params _ => some params
  | .functionDeclaration _ params _ => some params
  | .arrowFunctionExpression _ params _ => some params
  | _ => none

/-- Models the body read of the executor in the composite filter. -/
def getBody : Node → Option Node
  | .functionExpression _ _ body => some body
  | .functionDeclaration _ _ body => some body
  | .arrowFunctionExpression _ _ body => some body
  | _ => none

/-- Models the read prom.arguments in the composite filter (prom has been
classified as a NewExpression by isNewPromiseExpression before the filter
runs). -/
def getArguments : Node → List Node
  | .newExpression _ _ arguments => arguments
  | .callExpression _ arguments => arguments
  | .optionalCallExpression _ arguments => arguments
  | _ => []

/-- Embeds the promise-filter closure that the composite entry point supplies
to both traversals: accept unconditionally when anyPromiseAsReturn, reject a
void-typed promise, otherwise take the first executor parameter as resolver
name and run the Resolver-Usage traversal over the executor body; a missing
or empty parameter list rejects. -/
def promiseFilter (anyPromiseAsReturn : Bool) : Node → Bool := fun prom =>
  if anyPromiseAsReturn then
    true
  else if isVoidPromise (some prom) then
    false
  else
    match (getArguments prom).head? with
    | none => false
    | some executor =>
      match getParams executor with
      | none => false
      | some [] => false
      | some (p0 :: _) =>
        hasNonEmptyResolverCall (getBody executor) (getName p0)

/-- Embeds hasValueOrExecutorHasNonEmptyResolveValue, the composite decision
entry point.  With allBranches it runs the Existence traversal in escalation
mode, converts a raised EmptyReturn signal to false, and otherwise conjoins
the Exhaustiveness traversal; without allBranches it runs the plain Existence
traversal (whose possible signal, were one raised, would propagate — the
source has no catch on that path). -/
def hasValueOrExecutorHasNonEmptyResolveValue (node : Option Node)
    (anyPromiseAsReturn allBranches : Bool) : Except Unit Bool :=
  if allBranches then
    .ok (match hasReturnValue node true (some (promiseFilter anyPromiseAsReturn)) with
      | .error _ => false
      | .ok hasReturn =>
        hasReturn &&
          allBrancheshaveReturnValues node (some (promiseFilter anyPromiseAsReturn)))
  else
    hasReturnValue node false (some (promiseFilter anyPromiseAsReturn))

/-- States, in the words of the specification, the Existence check that the
composite entry point performs in all-branches mode: run the Existence
traversal with escalation enabled and convert a raised EmptyReturn signal to
false. -/
def escalatedExistenceAsBool (node : Option Node) (promFilter : Option (Node → Bool)) : Bool :=
  match hasReturnValue node true promFilter with
  | .error _ => false
  | .ok b => b

/-- One recursion edge of the Resolver-Usage traversal: Steps r parent child
holds exactly when hasNonEmptyResolverCall on the parent evaluates
hasNonEmptyResolverCall on the child (directly or through one of its list
helpers).  The guarded arms of the source are mirrored by hypotheses: a
function-like node is entered only when its first parameter does not rebind
the resolver name, a key only when the member is computed, decorators only
when the decorator list is present, and optional children only when
non-null. -/
inductive Steps (r : Option String) : Node → Node → Prop where
  | callArg {callee : Node} {args : List Node} {a : Node} (ha : a ∈ args) :
      Steps r (.callExpression callee args) a
  | optionalCallArg {callee : Node} {args : List Node} {a : Node} (ha : a ∈ args) :
      Steps r (.optionalCallExpression callee args) a
  | chain {e : Node} : Steps r (.chainExpression e) e
  | decoratorExpr {e : Node} : Steps r (.decorator e) e
  | exprStmt {e : Node} : Steps r (.expressionStatement e) e
  | classBodyElem {body : List Node} {b : Node} (hb : b ∈ body) : Steps r (.classBody body) b
  | blockElem {body : List Node} {b : Node} (hb : b ∈ body) : Steps r (.blockStatement body) b
  | functionExprBody {expr : Bool} {params : List Node} {body : Node}
      (hshadow : ((params.head?.bind getName) == r) = false) :
      Steps r (.functionExpression expr params body) body
  | functionDeclBody {expr : Bool} {params : List Node} {body : Node}
      (hshadow : ((params.head?.bind getName) == r) = false) :
      Steps r (.functionDeclaration expr params body) body
  | arrowBody {expr : Bool} {params : List Node} {body : Node}
      (hshadow : ((params.head?.bind getName) == r) = false) :
      Steps r (.arrowFunctionExpression expr params body) body
  | labeledBody {body : Node} : Steps r (.labeledStatement body) body
  | whileBody {t body : Node} : Steps r (.whileStatement t body) body
  | doWhileBody {t body : Node} : Steps r (.doWhileStatement t body) body
  | forBody {t : Option Node} {body : Node} : Steps r (.forStatement t body) body
  | forInBody {body : Node} : Steps r (.forInStatement body) body
  | forOfBody {body : Node} : Steps r (.forOfStatement body) body
  | withBody {body : Node} : Steps r (.withStatement body) body
  | condTest {t c a : Node} : Steps r (.conditionalExpression t c a) t
  | condConsequent {t c a : Node} : Steps r (.conditionalExpression t c a) c
  | condAlternate {t c a : Node} : Steps r (.conditionalExpression t c a) a
  | ifTest {t c : Node} {a : Option Node} : Steps r (.ifStatement t c a) t
  | ifConsequent {t c : Node} {a : Option Node} : Steps r (.ifStatement t c a) c
  | ifAlternate {t c a : Node} : Steps r (.ifStatement t c (some a)) a
  | tryBlock {b : Node} {h f : Option Node} : Steps r (.tryStatement b h f) b
  | tryHandler {b hb : Node} {f : Option Node} : Steps r (.tryStatement b (some hb) f) hb
  | tryFinalizer {b f : Node} {h : Option Node} : Steps r (.tryStatement b h (some f)) f
  | switchCaseStmt {cs : List (List Node)} {c : List Node} {s : Node}
      (hc : c ∈ cs) (hs : s ∈ c) : Steps r (.switchStatement cs) s
  | arrayPatternElem {els : List (Option Node)} {e : Node} (he : some e ∈ els) :
      Steps r (.arrayPattern els) e
  | arrayExpressionElem {els : List (Option Node)} {e : Node} (he : some e ∈ els) :
      Steps r (.arrayExpression els) e
  | assignPatternRight {right : Node} : Steps r (.assignmentPattern right) right
  | assignLeft {l rr : Node} : Steps r (.assignmentExpression l rr) l
  | assignRight {l rr : Node} : Steps r (.assignmentExpression l rr) rr
  | binaryLeft {l rr : Node} : Steps r (.binaryExpression l rr) l
  | binaryRight {l rr : Node} : Steps r (.binaryExpression l rr) rr
  | logicalLeft {l rr : Node} : Steps r (.logicalExpression l rr) l
  | logicalRight {l rr : Node} : Steps r (.logicalExpression l rr) rr
  | seqElem {es : List Node} {e : Node} (he : e ∈ es) : Steps r (.sequenceExpression es) e
  | templateElem {es : List Node} {e : Node} (he : e ∈ es) : Steps r (.templateLiteral es) e
  | objPatternProp {ps : List Node} {p : Node} (hp : p ∈ ps) : Steps r (.objectPattern ps) p
  | objExpressionProp {ps : List Node} {p : Node} (hp : p ∈ ps) : Steps r (.objectExpression ps) p
  | classMethodDecorator {decs : List Node} {computed : Bool} {key value d : Node} (hd : d ∈ decs) :
      Steps r (.classMethod (some decs) computed key value) d
  | classMethodKey {decs : Option (List Node)} {key value : Node} :
      Steps r (.classMethod decs true key value) key
  | classMethodValue {decs : Option (List Node)} {computed : Bool} {key value : Node} :
      Steps r (.classMethod decs computed key value) value
  | methodDefDecorator {decs : List Node} {computed : Bool} {key value d : Node} (hd : d ∈ decs) :
      Steps r (.methodDefinition (some decs) computed key value) d
  | methodDefKey {decs : Option (List Node)} {key value : Node} :
      Steps r (.methodDefinition decs true key value) key
  | methodDefValue {decs : Option (List Node)} {computed : Bool} {key value : Node} :
      Steps r (.methodDefinition decs computed key value) value
  | objectPropertyKey {key value : Node} : Steps r (.objectProperty true key value) key
  | objectPropertyValue {computed : Bool} {key value : Node} :
      Steps r (.objectProperty computed key value) value
  | propertyDefinitionKey {key value : Node} : Steps r (.propertyDefinition true key value) key
  | propertyDefinitionValue {computed : Bool} {key value : Node} :
      Steps r (.propertyDefinition computed key value) value
  | classPropertyKey {key value : Node} : Steps r (.classProperty true key value) key
  | classPropertyValue {computed : Bool} {key value : Node} :
      Steps r (.classProperty computed key value) value
  | propertyKey {key value : Node} : Steps r (.property true key value) key
  | propertyValue {computed : Bool} {key value : Node} : Steps r (.property computed key value) value
  | objectMethodKey {key : Node} {args : List Node} : Steps r (.objectMethod true key args) key
  | objectMethodArg {computed : Bool} {key : Node} {args : List Node} {a : Node} (ha : a ∈ args) :
      Steps r (.objectMethod computed key args) a
  | classExprBody {body : Node} : Steps r (.classExpression body) body
  | classDeclBody {body : Node} : Steps r (.classDeclaration body) body
  | awaitArg {a : Node} : Steps r (.awaitExpression a) a
  | spreadArg {a : Node} : Steps r (.spreadElement a) a
  | unaryArg {a : Node} : Steps r (.unaryExpression a) a
  | yieldArg {a : Node} : Steps r (.yieldExpression (some a)) a
  | varDeclElem {ds : List Node} {d : Node} (hd : d ∈ ds) : Steps r (.variableDeclaration ds) d
  | varDeclaratorId {i : Node} {init : Option Node} : Steps r (.variableDeclarator i init) i
  | varDeclaratorInit {i init : Node} : Steps r (.variableDeclarator i (some init)) init
  | taggedQuasi {q : Node} : Steps r (.taggedTemplateExpression q) q
  | memberObject {o p : Node} : Steps r (.memberExpression o p) o
  | memberProp {o p : Node} : Steps r (.memberExpression o p) p
  | optMemberObject {o p : Node} : Steps r (.optionalMemberExpression o p) o
  | optMemberProp {o p : Node} : Steps r (.optionalMemberExpression o p) p
  | importSource {s : Node} : Steps r (.importExpr s) s
  | importExpressionSource {s : Node} : Steps r (.importExpression s) s
  | returnArg {a : Node} : Steps r (.returnStatement (some a)) a

/-- Reachability along the Resolver-Usage traversal: the reflexive-transitive
closure of its recursion edges. -/
def Reaches (r : Option String) : Node → Node → Prop :=
  Relation.ReflTransGen (Steps r)

/-- States clause (a) of the Resolver-Usage contract at a single call node:
the callee bears the resolver name and at least one argument slot is
supplied. -/
def isNonEmptyResolverCallAt (c : Node) (r : Option String) : Bool :=
  match c with
  | .callExpression callee args
  | .optionalCallExpression callee args =>
    getName callee == r && (decide (args.length > 1) || args.head?.isSome)
  | _ => false

/-- States clause (b) of the Resolver-Usage contract at a single call node:
the bare resolver identifier appears among the arguments of the call. -/
def resolverPassedAsArgAt (c : Node) (r : Option String) : Bool :=
  match c with
  | .callExpression _ args
  | .optionalCallExpression _ args =>
    args.any (fun a => isIdentifierNamed a r)
  | _ => false

/-- Disjunction of two signal-free runs is signal-free. -/
theorem orE_ne_error {a b : Except Unit Bool} (ha : a ≠ .error ())
    (hb : b ≠ .error ()) : orE a b ≠ .error () := by
  match a with
  | .error e => exact absurd rfl ha
  | .ok true => simp [orE]
  | .ok false => simpa [orE] using hb

/-- With escalation disabled the Existence traversal never raises the
EmptyReturn signal: the sole raise site is guarded by throwOnNullReturn. -/
theorem hasReturnValue_noSignal (node : Option Node) (thr : Bool)
    (pf : Option (Node → Bool)) (h : thr = false) :
    hasReturnValue node thr pf ≠ .error () := by
  induction node, thr, pf using hasReturnValue.induct
  case motive2 cs thr2 pf2 => exact thr2 = false → hasReturnValueCaseList cs thr2 pf2 ≠ .error ()
  case motive3 st thr3 pf3 => exact thr3 = false → hasReturnValueStmtList st thr3 pf3 ≠ .error ()
  case motive4 bd thr4 pf4 => exact thr4 = false → hasReturnValueBlockList bd thr4 pf4 ≠ .error ()
  all_goals try (exact Bool.noConfusion h)
  all_goals simp only [hasReturnValue, hasReturnValueBlockList, hasReturnValueStmtList,
    hasReturnValueCaseList]
  all_goals first
    | (simp; done)
    | (simp_all; done)
    | ((apply orE_ne_error <;> simp_all); done)
    | ((apply orE_ne_error (by simp_all) (by apply orE_ne_error <;> simp_all)); done)
    | ((split_ifs <;> simp_all); done)
    | ((apply orE_ne_error <;> split_ifs <;> simp_all); done)
    | ((intro hthr; apply orE_ne_error <;> simp_all); done)
    | ((intro hthr; apply orE_ne_error <;> ((try split_ifs) <;> simp_all)); done)

/-- A member of a traversed list that reports a resolver use makes the list
helper report one. -/
theorem hasNonEmptyResolverCallList_of_mem {l : List Node} {x : Node} {r : Option String}
    (hx : x ∈ l) (h : hasNonEmptyResolverCall (some x) r = true) :
    hasNonEmptyResolverCallList l r = true := by
  induction l with
  | nil => cases hx
  | cons a t ih =>
    rcases List.mem_cons.mp hx with rfl | hmem
    · simp [hasNonEmptyResolverCallList, h]
    · simp [hasNonEmptyResolverCallList, ih hmem]

/-- Variant of the previous lemma for the switch-case statement helper. -/
theorem hasNonEmptyResolverCallStmtList_of_mem {l : List Node} {x : Node} {r : Option String}
    (hx : x ∈ l) (h : hasNonEmptyResolverCall (some x) r = true) :
    hasNonEmptyResolverCallStmtList l r = true := by
  induction l with
  | nil => cases hx
  | cons a t ih =>
    rcases List.mem_cons.mp hx with rfl | hmem
    · simp [hasNonEmptyResolverCallStmtList, h]
    · simp [hasNonEmptyResolverCallStmtList, ih hmem]

/-- A case whose statement helper reports a resolver use makes the case-list
helper report one. -/
theorem hasNonEmptyResolverCallCaseList_of_mem {cs : List (List Node)} {c : List Node}
    {r : Option String} (hc : c ∈ cs) (h : hasNonEmptyResolverCallStmtList c r = true) :
    hasNonEmptyResolverCallCaseList cs r = true := by
  induction cs with
  | nil => cases hc
  | cons a t ih =>
    rcases List.mem_cons.mp hc with rfl | hmem
    · simp [hasNonEmptyResolverCallCaseList, h]
    · simp [hasNonEmptyResolverCallCaseList, ih hmem]

/-- A non-null array element that reports a resolver use makes the
element-list helper report one. -/
theorem hasNonEmptyResolverCallOptList_of_mem {l : List (Option Node)} {x : Node}
    {r : Option String} (hx : some x ∈ l) (h : hasNonEmptyResolverCall (some x) r = true) :
    hasNonEmptyResolverCallOptList l r = true := by
  induction l with
  | nil => cases hx
  | cons a t ih =>
    rcases List.mem_cons.mp hx with rfl | hmem
    · simp [hasNonEmptyResolverCallOptList, h]
    · simp [hasNonEmptyResolverCallOptList, ih hmem]

/-- An argument that is the bare resolver identifier, or that itself reports
a resolver use, makes the argument helper report one. -/
theorem hasNonEmptyResolverCallArgs_of_mem {args : List Node} {x : Node} {r : Option String}
    (hx : x ∈ args)
    (h : isIdentifierNamed x r = true ∨ hasNonEmptyResolverCall (some x) r = true) :
    hasNonEmptyResolverCallArgs args r = true := by
  induction args with
  | nil => cases hx
  | cons a t ih =>
    rcases List.mem_cons.mp hx with rfl | hmem
    · rcases h with h | h <;> simp [hasNonEmptyResolverCallArgs, h]
    · simp [hasNonEmptyResolverCallArgs, ih hmem]

set_option maxHeartbeats 1000000 in
/-- Monotonicity of the Resolver-Usage traversal along one of its own
recursion edges: a child that reports a resolver use makes its parent
report one. -/
theorem hasNonEmptyResolverCall_step {root child : Node} {r : Option String}
    (hstep : Steps r root child)
    (h : hasNonEmptyResolverCall (some child) r = true) :
    hasNonEmptyResolverCall (some root) r = true := by
  cases hstep <;>
    first
    | (simp [hasNonEmptyResolverCall, h]; done)
    | skip
  case callArg callee args ha =>
    simp only [hasNonEmptyResolverCall, Bool.or_eq_true]
    exact Or.inr (hasNonEmptyResolverCallArgs_of_mem ha (Or.inr h))
  case optionalCallArg callee args ha =>
    simp only [hasNonEmptyResolverCall, Bool.or_eq_true]
    exact Or.inr (hasNonEmptyResolverCallArgs_of_mem ha (Or.inr h))
  case classBodyElem body hb =>
    simp only [hasNonEmptyResolverCall]
    exact hasNonEmptyResolverCallList_of_mem hb h
  case blockElem body hb =>
    simp only [hasNonEmptyResolverCall]
    exact hasNonEmptyResolverCallList_of_mem hb h
  case switchCaseStmt cs c hc hs =>
    simp only [hasNonEmptyResolverCall]
    exact hasNonEmptyResolverCallCaseList_of_mem hc (hasNonEmptyResolverCallStmtList_of_mem hs h)
  case arrayPatternElem els he =>
    simp only [hasNonEmptyResolverCall]
    exact hasNonEmptyResolverCallOptList_of_mem he h
  case arrayExpressionElem els he =>
    simp only [hasNonEmptyResolverCall]
    exact hasNonEmptyResolverCallOptList_of_mem he h
  case seqElem es he =>
    simp only [hasNonEmptyResolverCall]
    exact hasNonEmptyResolverCallList_of_mem he h
  case templateElem es he =>
    simp only [hasNonEmptyResolverCall]
    exact hasNonEmptyResolverCallList_of_mem he h
  case objPatternProp ps hp =>
    simp only [hasNonEmptyResolverCall]
    exact hasNonEmptyResolverCallList_of_mem hp h
  case objExpressionProp ps hp =>
    simp only [hasNonEmptyResolverCall]
    exact hasNonEmptyResolverCallList_of_mem hp h
  case varDeclElem ds hd =>
    simp only [hasNonEmptyResolverCall]
    exact hasNonEmptyResolverCallList_of_mem hd h
  case classMethodDecorator decs computed key value hd =>
    simp only [hasNonEmptyResolverCall, Bool.or_eq_true]
    exact Or.inl (Or.inl (hasNonEmptyResolverCallList_of_mem hd h))
  case methodDefDecorator decs computed key value hd =>
    simp only [hasNonEmptyResolverCall, Bool.or_eq_true]
    exact Or.inl (Or.inl (hasNonEmptyResolverCallList_of_mem hd h))
  case classMethodKey decs value =>
    cases decs <;> simp [hasNonEmptyResolverCall, h]
  case classMethodValue decs computed key =>
    cases decs <;> simp [hasNonEmptyResolverCall, h]
  case methodDefKey decs value =>
    cases decs <;> simp [hasNonEmptyResolverCall, h]
  case methodDefValue decs computed key =>
    cases decs <;> simp [hasNonEmptyResolverCall, h]
  case objectMethodArg computed key args ha =>
    simp only [hasNonEmptyResolverCall, Bool.or_eq_true]
    exact Or.inr (hasNonEmptyResolverCallList_of_mem ha h)
  case functionExprBody expr params hshadow =>
    simp [hasNonEmptyResolverCall, hshadow, h]
  case functionDeclBody expr params hshadow =>
    simp [hasNonEmptyResolverCall, hshadow, h]
  case arrowBody expr params hshadow =>
    simp [hasNonEmptyResolverCall, hshadow, h]

/-- A call node satisfying clause (a) or clause (b) of the Resolver-Usage
contract reports a resolver use. -/
theorem hasNonEmptyResolverCall_at_call {c : Node} {r : Option String}
    (hc : isNonEmptyResolverCallAt c r = true ∨ resolverPassedAsArgAt c r = true) :
    hasNonEmptyResolverCall (some c) r = true := by
  cases c
  case callExpression callee args =>
    rcases hc with hc | hc
    · simp only [isNonEmptyResolverCallAt] at hc
      simp [hasNonEmptyResolverCall, hc]
    · simp only [resolverPassedAsArgAt, List.any_eq_true] at hc
      obtain ⟨a, ha, hid⟩ := hc
      simp only [hasNonEmptyResolverCall, Bool.or_eq_true]
      exact Or.inr (hasNonEmptyResolverCallArgs_of_mem ha (Or.inl hid))
  case optionalCallExpression callee args =>
    rcases hc with hc | hc
    · simp only [isNonEmptyResolverCallAt] at hc
      simp [hasNonEmptyResolverCall, hc]
    · simp only [resolverPassedAsArgAt, List.any_eq_true] at hc
      obtain ⟨a, ha, hid⟩ := hc
      simp only [hasNonEmptyResolverCall, Bool.or_eq_true]
      exact Or.inr (hasNonEmptyResolverCallArgs_of_mem ha (Or.inl hid))
  all_goals rcases hc with hc | hc <;>
    simp [isNonEmptyResolverCallAt, resolverPassedAsArgAt] at hc

/-- C7: the Resolver-Usage traversal yields true whenever, anywhere the
traversal reaches in the node (Reaches, the closure of its own recursion
edges, which respects the shadowing exclusion), there is a call expression
that either (a) has the bare resolver identifier as callee and supplies at
least one argument slot — an explicit undefined-valued argument is an
Identifier node occupying a slot, so it counts — or (b) has the bare
resolver identifier among its arguments. -/
theorem resolver_usage_reachable_call (root c : Node) (r : Option String)
    (hreach : Reaches r root c)
    (hc : isNonEmptyResolverCallAt c r = true ∨ resolverPassedAsArgAt c r = true) :
    hasNonEmptyResolverCall (some root) r = true := by
  induction hreach using Relation.ReflTransGen.head_induction_on with
  | refl => exact hasNonEmptyResolverCall_at_call hc
  | head hstep hrest ih => exact hasNonEmptyResolverCall_step hstep ih

/-- Witness for C7 at a concrete input: the resolver is passed as an argument
to another call two traversal steps below the root, and the traversal
reports a use. -/
theorem resolver_usage_reachable_call_witness :
    hasNonEmptyResolverCall
      (some (.blockStatement [.expressionStatement
        (.callExpression (.identifier "doWork") [.identifier "resolve"])]))
      (some "resolve") = true :=
  resolver_usage_reachable_call _
    (.callExpression (.identifier "doWork") [.identifier "resolve"]) (some "resolve")
    (Relation.ReflTransGen.head (Steps.blockElem (List.Mem.head _))
      (Relation.ReflTransGen.head Steps.exprStmt Relation.ReflTransGen.refl))
    (Or.inr (by decide))

/-- C8: a function-like node whose first parameter carries the resolver name
is judged resolver-free outright — the traversal yields false for that node
whatever its body holds, so no occurrence of the resolver name inside the
shadowed subtree can make the traversal true. -/
theorem resolver_shadowed_subtree_excluded (expr : Bool) (p : Node) (rest : List Node)
    (body : Node) (name : String) (h : getName p = some name) :
    hasNonEmptyResolverCall (some (.functionExpression expr (p :: rest) body))
      (some name) = false ∧
    hasNonEmptyResolverCall (some (.functionDeclaration expr (p :: rest) body))
      (some name) = false ∧
    hasNonEmptyResolverCall (some (.arrowFunctionExpression expr (p :: rest) body))
      (some name) = false := by
  refine ⟨?_, ?_, ?_⟩ <;> simp [hasNonEmptyResolverCall, h]

/-- Witness for C8 at a concrete input: the shadowed body even calls the
resolver with an argument, yet the traversal yields false for the shadowing
function node. -/
theorem resolver_shadowed_subtree_excluded_witness :
    hasNonEmptyResolverCall
      (some (.functionExpression false [.identifier "resolve"]
        (.blockStatement [.expressionStatement
          (.callExpression (.identifier "resolve") [.other])]))) (some "resolve") = false :=
  (resolver_shadowed_subtree_excluded false (.identifier "resolve") []
    (.blockStatement [.expressionStatement (.callExpression (.identifier "resolve") [.other])])
    "resolve" rfl).1
/-- C9: an absent input node yields false for every operation: the Existence
traversal under either escalation flag and any filter (and it yields an
actual false, never the signal), the Exhaustiveness traversal under any
filter, and the Resolver-Usage traversal for every resolver name. -/
theorem absent_node_all_false (thr : Bool) (promFilter : Option (Node → Bool))
    (resolverName : Option String) :
    hasReturnValue none thr promFilter = .ok false ∧
    allBrancheshaveReturnValues none promFilter = false ∧
    hasNonEmptyResolverCall none resolverName = false := by
  refine ⟨?_, ?_, ?_⟩ <;> simp [hasReturnValue, allBrancheshaveReturnValues,
    hasNonEmptyResolverCall]

/-- C3: the composite decision with allBranches = true equals the Existence
traversal run in escalation mode (a raised EmptyReturn signal converted to
false) conjoined with the Exhaustiveness traversal, both under the supplied
promise filter (the conjunction is the short-circuiting Bool.and, so the
Exhaustiveness check is evaluated only when the Existence check is true);
with allBranches = false it equals the plain Existence traversal. -/
theorem composite_decision_spec (node : Option Node) (anyPromiseAsReturn : Bool) :
    hasValueOrExecutorHasNonEmptyResolveValue node anyPromiseAsReturn true =
      .ok (escalatedExistenceAsBool node (some (promiseFilter anyPromiseAsReturn)) &&
        allBrancheshaveReturnValues node (some (promiseFilter anyPromiseAsReturn))) ∧
    hasValueOrExecutorHasNonEmptyResolveValue node anyPromiseAsReturn false =
      hasReturnValue node false (some (promiseFilter anyPromiseAsReturn)) := by
  constructor
  · cases hv : hasReturnValue node true (some (promiseFilter anyPromiseAsReturn)) <;>
      simp [hasValueOrExecutorHasNonEmptyResolveValue, escalatedExistenceAsBool, hv]
  · simp [hasValueOrExecutorHasNonEmptyResolveValue]

/-- C2 counterexample: the EmptyReturn signal is observable by an external
caller, because the source exports hasReturnValue itself with its escalation
flag; invoking the exported function with throwOnNullReturn = true on an
argument-less return propagates the signal instead of returning a boolean. -/
theorem exported_existence_propagates_signal :
    hasReturnValue (some (.returnStatement none)) true none = .error () := by
  simp [hasReturnValue]

/-- C2 amended: the EmptyReturn signal is fully contained on every path the
composite entry point uses — a call of the Existence traversal with
escalation disabled never raises it, and the composite decision always
returns a boolean for every input and both flags (its escalating Existence
run is wrapped by the designated catch that converts the signal to false).
Only a direct call of the exported hasReturnValue with escalation enabled
can propagate the signal. -/
theorem emptyReturn_signal_containment (node : Option Node)
    (promFilter : Option (Node → Bool)) (anyPromiseAsReturn allBranches : Bool) :
    hasReturnValue node false promFilter ≠ .error () ∧
    (∃ b, hasValueOrExecutorHasNonEmptyResolveValue node anyPromiseAsReturn allBranches = .ok b) := by
  refine ⟨hasReturnValue_noSignal node false promFilter rfl, ?_⟩
  cases allBranches
  · match hv : hasReturnValue node false (some (promiseFilter anyPromiseAsReturn)) with
    | .ok b => exact ⟨b, by simp [hasValueOrExecutorHasNonEmptyResolveValue, hv]⟩
    | .error e =>
      exact absurd hv (by
        cases e
        exact hasReturnValue_noSignal node false (some (promiseFilter anyPromiseAsReturn)) rfl)
  · refine ⟨(match hasReturnValue node true (some (promiseFilter anyPromiseAsReturn)) with
      | .error _ => false
      | .ok hasReturn =>
        hasReturn && allBrancheshaveReturnValues node (some (promiseFilter anyPromiseAsReturn))), ?_⟩
    simp [hasValueOrExecutorHasNonEmptyResolveValue]

/-- C1 counterexample: the classifier recognizes only the void-equivalent
tag.  A returned promise whose declared type argument is TSUndefinedKeyword
is in the no-value annotation set, yet the composite decision (with
anyDeferredAsReturn = false) is true because the filter falls through to the
Resolver-Usage traversal, which finds the resolver invoked with an argument. -/
theorem undefined_typed_promise_not_rejected :
    "TSUndefinedKeyword" ∈ undefinedKeywords ∧
    hasValueOrExecutorHasNonEmptyResolveValue
      (some (.returnStatement (some (.newExpression (.identifier "Promise")
        (some ["TSUndefinedKeyword"])
        [.arrowFunctionExpression false [.identifier "resolve"]
          (.blockStatement [.expressionStatement
            (.callExpression (.identifier "resolve") [.other])])]))))
      false false = .ok true := by
  constructor
  · simp [undefinedKeywords]
  · simp [hasValueOrExecutorHasNonEmptyResolveValue, hasReturnValue, promiseFilter,
      isVoidPromise, isNewPromiseExpression, getArguments, getParams, getBody, getName,
      hasNonEmptyResolverCall, hasNonEmptyResolverCallList, isIdentifierNamed]

/-- C1 amended: for every returned deferred-value construction whose declared
type argument is the void-equivalent tag TSVoidKeyword (the only member of
the no-value annotation set that the classifier isVoidPromise recognizes —
undefined-equivalent and never-equivalent type arguments are not rejected),
the composite decision with anyDeferredAsReturn = false yields false for
either allBranches flag, regardless of the contents of the constructor
argument list and hence of the initializer body. -/
theorem void_typed_promise_return_decides_false (rest : List String)
    (args : List Node) (allBranches : Bool) :
    hasValueOrExecutorHasNonEmptyResolveValue
      (some (.returnStatement (some (.newExpression (.identifier "Promise")
        (some ("TSVoidKeyword" :: rest)) args))))
      false allBranches = .ok false := by
  cases allBranches <;>
    simp [hasValueOrExecutorHasNonEmptyResolveValue, hasReturnValue, promiseFilter,
      isVoidPromise, isNewPromiseExpression]

/-- C4: an exception-handling construct is exhaustive exactly as follows —
if a finalizer exists and is itself exhaustive, the construct is exhaustive
regardless of the protected block and handler; otherwise it is exhaustive
iff the protected block is exhaustive, the handler (if present) has an
exhaustive body, and any finalizer is free of a reachable argument-less
return, detected by running the Existence traversal over the finalizer in
escalation mode and treating a raised EmptyReturn signal as blocking. -/
theorem try_statement_exhaustiveness (block : Node) (handlerBody finalizer : Option Node)
    (promFilter : Option (Node → Bool)) :
    allBrancheshaveReturnValues (some (.tryStatement block handlerBody finalizer)) promFilter =
      if finalizer.isSome && allBrancheshaveReturnValues finalizer promFilter then true
      else
        allBrancheshaveReturnValues (some block) promFilter &&
        (handlerBody.isNone || allBrancheshaveReturnValues handlerBody promFilter) &&
        (finalizer.isNone || finalizerFreeOfEmptyReturn finalizer promFilter) := by
  cases hfin : (finalizer.isSome && allBrancheshaveReturnValues finalizer promFilter) <;>
    simp [allBrancheshaveReturnValues, hfin]

/-- C5 counterexample: a ForStatement whose test is the literal true is a
loop node with a literal always-true test, yet the Exhaustiveness traversal
recurses with Exhaustiveness (yielding false on this body), not with the
Existence traversal (which yields true on this body): the literal-true
special case applies only to WhileStatement and DoWhileStatement. -/
theorem for_loop_literal_true_not_special :
    allBrancheshaveReturnValues
      (some (.forStatement (some (.literal (some true)))
        (.blockStatement [.ifStatement .other
          (.blockStatement [.returnStatement (some .other)]) none])))
      none = false ∧
    hasReturnValue
      (some (.blockStatement [.ifStatement .other
        (.blockStatement [.returnStatement (some .other)]) none]))
      false none = .ok true := by
  constructor
  · simp [allBrancheshaveReturnValues, hasReturnValueBool, hasReturnValue]
  · simp [hasReturnValue, hasReturnValueBlockList, isFunctionDeclaration, orE]

/-- C5 amended: a while or do-while loop whose test is a literal with value
true has its Exhaustiveness given by the Existence traversal (escalation
off) of its body; every other loop node — including a for loop even when its
test is the literal true, and for-in, for-of, labeled and with statements —
has its Exhaustiveness given by the Exhaustiveness of its body. -/
theorem loop_exhaustiveness_rules (test body : Node) (testOpt : Option Node)
    (promFilter : Option (Node → Bool)) :
    (allBrancheshaveReturnValues (some (.whileStatement test body)) promFilter =
      if valueIsTrue test then hasReturnValueBool (some body) promFilter
      else allBrancheshaveReturnValues (some body) promFilter) ∧
    (allBrancheshaveReturnValues (some (.doWhileStatement test body)) promFilter =
      if valueIsTrue test then hasReturnValueBool (some body) promFilter
      else allBrancheshaveReturnValues (some body) promFilter) ∧
    (allBrancheshaveReturnValues (some (.forStatement testOpt body)) promFilter =
      allBrancheshaveReturnValues (some body) promFilter) ∧
    (allBrancheshaveReturnValues (some (.forInStatement body)) promFilter =
      allBrancheshaveReturnValues (some body) promFilter) ∧
    (allBrancheshaveReturnValues (some (.forOfStatement body)) promFilter =
      allBrancheshaveReturnValues (some body) promFilter) ∧
    (allBrancheshaveReturnValues (some (.labeledStatement body)) promFilter =
      allBrancheshaveReturnValues (some body) promFilter) ∧
    (allBrancheshaveReturnValues (some (.withStatement body)) promFilter =
      allBrancheshaveReturnValues (some body) promFilter) := by
  refine ⟨?_, ?_, ?_, ?_, ?_, ?_, ?_⟩ <;> simp only [allBrancheshaveReturnValues]

/-- C6: a multi-way branch is exhaustive iff no branch consequent contains,
as a direct statement, a BreakStatement or an argument-less ReturnStatement. -/
theorem switch_exhaustive_iff (cs : List (List Node)) (promFilter : Option (Node → Bool)) :
    allBrancheshaveReturnValues (some (.switchStatement cs)) promFilter = true ↔
      ∀ someCase ∈ cs, ∀ consNode ∈ someCase,
        isBreakStatement consNode = false ∧ isEmptyReturn consNode = false := by
  simp only [allBrancheshaveReturnValues]
  simp [List.all_eq_true, List.any_eq_true, not_or]

/-- C10: for a function-like node with a block body, the presence of a
ReturnStatement — with or without an argument — among the direct statements
of that block makes the Exhaustiveness traversal yield true for the function
node, whatever the rest of the block (in particular its last statement)
contains. -/
theorem function_block_direct_return_exhaustive (expression : Bool) (params : List Node)
    (stmts : List Node) (promFilter : Option (Node → Bool))
    (h : ∃ s ∈ stmts, isReturnStatement s = true) :
    allBrancheshaveReturnValues
      (some (.functionExpression expression params (.blockStatement stmts))) promFilter = true ∧
    allBrancheshaveReturnValues
      (some (.functionDeclaration expression params (.blockStatement stmts))) promFilter = true ∧
    allBrancheshaveReturnValues
      (some (.arrowFunctionExpression expression params (.blockStatement stmts))) promFilter = true := by
  have hany : stmts.any (fun nde => isReturnStatement nde) = true :=
    List.any_eq_true.mpr h
  refine ⟨?_, ?_, ?_⟩ <;>
    simp only [allBrancheshaveReturnValues, blockBody, hany, Bool.or_true]

/-- Witness for C10 at a concrete input: the block holds a bare return
followed by a non-exhaustive last statement, and the function node is still
judged exhaustive. -/
theorem function_block_direct_return_exhaustive_witness :
    allBrancheshaveReturnValues
      (some (.functionExpression false []
        (.blockStatement [.returnStatement none, .expressionStatement .other]))) none = true :=
  (function_block_direct_return_exhaustive false []
    [.returnStatement none, .expressionStatement .other] none
    ⟨.returnStatement none, by simp, rfl⟩).1
